import Mathlib

/-!
Shallow embedding of the mookme step execution engine
(src/packages/mookme/src/commands/publish.ts: the `StepExecutor` class) and
of the gitignore maintenance routine
(src/packages/mookme/src/utils/git.ts: `writeGitIgnoreFiles`).

JavaScript strings become `String`, optional fields become `Option`,
thrown errors become `Except.error`, and the asynchronous `run` method
becomes a pure function from the executor and the observable behavior of
the spawned child process (exit code and output chunks) to the list of
published status events plus the resolved outcome.
-/

namespace Mookme

/-- Occurrence of `pat` as a contiguous sublist of `s`, scanning left to
right. -/
def charsInclude : List Char → List Char → Bool
  | [], pat => pat.isPrefixOf ([] : List Char)
  | c :: rest, pat => pat.isPrefixOf (c :: rest) || charsInclude rest pat

/-- JS `s.includes(pat)`: `pat` occurs as a contiguous substring of `s`
(the empty pattern is always included). -/
def strIncludes (s pat : String) : Bool :=
  charsInclude s.data pat.data

/-- Replace the first occurrence of `pat` by `repl` in a character list;
an empty `pat` is inserted at the front, as in JS. -/
def replaceFirstChars (pat repl : List Char) : List Char → List Char
  | [] => if pat = [] then repl else []
  | c :: rest =>
    if pat = [] then repl ++ c :: rest
    else if pat.isPrefixOf (c :: rest) then repl ++ (c :: rest).drop pat.length
    else c :: replaceFirstChars pat repl rest

/-- JS `s.replace(pat, repl)` with a string pattern: only the first
occurrence of `pat` is replaced; if `pat` does not occur, `s` is returned
unchanged. -/
def replaceFirst (s pat repl : String) : String :=
  String.mk (replaceFirstChars pat.data repl.data s.data)

/-- Split a character list at every character satisfying `p`; the
delimiting characters are dropped and empty pieces are kept, as in JS
`split`. -/
def splitChars (p : Char → Bool) : List Char → List (List Char)
  | [] => [[]]
  | c :: rest =>
    if p c then [] :: splitChars p rest
    else
      match splitChars p rest with
      | [] => [[c]]
      | h :: t => (c :: h) :: t

/-- JS `s.split(' ')`: split at every space character, keeping empty
pieces. -/
def jsSplitSpace (s : String) : List String :=
  (splitChars (fun c => c == ' ') s.data).map String.mk

/-- JS `parts.join(sep)`. -/
def jsJoin (sep : String) : List String → String
  | [] => ""
  | [a] => a
  | a :: b :: rest => a ++ sep ++ jsJoin sep (b :: rest)

/-- The `chalk.bold` styling used on the stdout separator: wraps its
argument in the ANSI bold escape sequences. -/
def chalkBold (s : String) : String :=
  "\u001b[1m" ++ s ++ "\u001b[22m"

/-- Modelled from the spec: the step type enum (`PackageType` from
src/types/hook.types.ts, which is not under src/). The executor only ever
tests whether the type is the environment-aware `python` variant. -/
inductive PackageType
  | python
  | generic
deriving DecidableEq

/-- Modelled from the spec: the lifecycle statuses (`ExecutionStatus` from
src/types/status.types.ts, which is not under src/):
Running followed by exactly one of Skipped, Success, Failure. -/
inductive ExecutionStatus
  | running
  | skipped
  | success
  | failure
deriving DecidableEq

/-- Modelled from the spec: a configured step (`StepCommand` from
src/types/step.types.ts, which is not under src/): a name, a command
template, and an optional `onlyOn` gating pattern (`none` models the
absent field). -/
structure StepCommand where
  name : String
  command : String
  onlyOn : Option String
deriving DecidableEq

/-- The `ExecuteStepOptions` interface of publish.ts. `type` and
`venvActivate` are optional in the source and become `Option`s. -/
structure ExecuteStepOptions where
  packageName : String
  packagePath : String
  rootDir : String
  type : Option PackageType
  venvActivate : Option String
  hookArguments : String
  stagedFiles : List String
deriving DecidableEq

/-- Bracket balance scan used to decide glob validity: every `[` must be
closed by a matching `]` and no stray `]` may appear. -/
def globBracketsBalanced (p : String) : Bool :=
  (p.data.foldl
    (fun st c =>
      match st, c with
      | some 0, ']' => none
      | some d, '[' => some (d + 1)
      | some (d + 1), ']' => some d
      | st, _ => st)
    (some 0)) = some 0

/-- A minimal glob matcher over `*` (any substring), `?` (any single
character) and literal characters. -/
def globMatchChars : List Char → List Char → Bool
  | [], [] => true
  | [], _ :: _ => false
  | '*' :: ps, [] => globMatchChars ps []
  | '*' :: ps, c :: cs => globMatchChars ps (c :: cs) || globMatchChars ('*' :: ps) cs
  | _ :: _, [] => false
  | p :: ps, c :: cs => (p == '?' || p == c) && globMatchChars ps cs
termination_by p s => (s.length, p.length)

/-- The path of `packagePath` relative to `rootDir` (identity when
`packagePath` does not lie under `rootDir`). -/
def relBase (rootDir packagePath : String) : String :=
  if packagePath = rootDir then ""
  else if packagePath.startsWith (rootDir ++ "/") then
    packagePath.drop (rootDir ++ "/").length
  else packagePath

/-- The path of file `f` relative to directory `base`, or `none` when `f`
does not lie under `base`. -/
def relUnder (base f : String) : Option String :=
  if base = "" then some f
  else if f.startsWith (base ++ "/") then some (f.drop (base ++ "/").length)
  else none

/-- Modelled from the spec: `getMatchedFiles` (src/utils/run-helpers.ts,
which is not under src/). Interprets `pattern` as a glob relative to
`packagePath` while the staged files are relative to `rootDir`: a file is
returned only if it lies under the package directory and its path
relative to the package satisfies the glob. Fails with a `PatternError`
when the pattern is syntactically invalid (e.g. an unbalanced bracket). -/
def getMatchedFiles (pattern packagePath : String) (stagedFiles : List String)
    (rootDir : String) : Except String (List String) :=
  if globBracketsBalanced pattern then
    let base := relBase rootDir packagePath
    Except.ok (stagedFiles.filterMap (fun f =>
      match relUnder base f with
      | some rel => if globMatchChars pattern.data rel.data then some f else none
      | none => none))
  else
    Except.error ("PatternError: invalid glob pattern " ++ pattern)

/-- The `StepExecutor` class of publish.ts: the step, the options, and the
`skipped` flag computed once at construction. -/
structure StepExecutor where
  step : StepCommand
  options : ExecuteStepOptions
  skipped : Bool
deriving DecidableEq

/-- `StepExecutor.isSkipped` (publish.ts lines 125-139). When `onlyOn` is
truthy (set and nonempty, per JS truthiness of `if (this.step.onlyOn)`),
the step is skipped exactly when no staged file matches the pattern; a
matcher error is re-thrown as the descriptive "Invalid onlyOn pattern"
error. When `onlyOn` is unset (or empty), the result is `false`. -/
def isSkipped (step : StepCommand) (options : ExecuteStepOptions) : Except String Bool :=
  match step.onlyOn with
  | some onlyOn =>
    if onlyOn = "" then Except.ok false
    else
      match getMatchedFiles onlyOn options.packagePath options.stagedFiles options.rootDir with
      | Except.ok matchedFiles => Except.ok (matchedFiles.length == 0)
      | Except.error err =>
        Except.error ("Invalid `onlyOn` pattern: " ++ onlyOn ++ "\n" ++ err)
  | none => Except.ok false

/-- The `StepExecutor` constructor (publish.ts lines 113-119): stores the
step and the options and computes `skipped` once, during instanciation; an
invalid `onlyOn` pattern makes construction throw. -/
def StepExecutor.make (step : StepCommand) (options : ExecuteStepOptions) :
    Except String StepExecutor :=
  match isSkipped step options with
  | Except.ok b => Except.ok { step := step, options := options, skipped := b }
  | Except.error e => Except.error e

/-- The event payload published on the bus by `emitStepStatus`
(publish.ts lines 146-152). -/
structure StatusEvent where
  packageName : String
  stepName : String
  status : ExecutionStatus
deriving DecidableEq

/-- `StepExecutor.emitStepStatus`: the event published on the bus for a
new status of this executor's step. -/
def emitStepStatus (e : StepExecutor) (status : ExecutionStatus) : StatusEvent :=
  { packageName := e.options.packageName, stepName := e.step.name, status := status }

/-- `StepExecutor.computeExecutedCommand` (publish.ts lines 159-170):
wrap the template for python steps with a truthy `venvActivate`
(`source ... && command && deactivate`), then split the hook arguments on
the space character, drop empty tokens, rejoin with single spaces, wrap in
double quotes, and substitute for the first occurrence of the literal
placeholder. -/
def computeExecutedCommand (e : StepExecutor) : String :=
  let execute :=
    match e.options.type, e.options.venvActivate with
    | some PackageType.python, some venv =>
      if venv = "" then e.step.command
      else "source " ++ venv ++ " && " ++ e.step.command ++ " && deactivate"
    | _, _ => e.step.command
  let args := (jsSplitSpace e.options.hookArguments).filter (fun arg => arg != "")
  replaceFirst execute "{args}" ("\"" ++ jsJoin " " args ++ "\"")

/-- The observable behavior of the child process spawned by `exec`: the
chunks delivered on stdout and stderr, and the exit code passed to the
`exit` handler (`none` models Node's `null` exit code, e.g. when the
process is killed by a signal). -/
structure ChildProcessResult where
  stdoutChunks : List String
  stderrChunks : List String
  exitCode : Option Int
deriving DecidableEq

/-- Output accumulation of publish.ts lines 190-198: each chunk is
appended to the buffer with a leading newline, starting from the empty
buffer. -/
def accumulateChunks (chunks : List String) : String :=
  chunks.foldl (fun acc chunk => acc ++ "\n" ++ chunk) ""

/-- The error value a failed run resolves with: the step and the message
built from the two output buffers. -/
structure StepError where
  step : StepCommand
  msg : String
deriving DecidableEq

/-- Everything observable about one `run()` call: the status events
published on the bus in order, the value the promise resolves with
(`none` is the "no error" resolution), whether `exec` was invoked, and
the command string passed to it. -/
structure RunResult where
  events : List StatusEvent
  outcome : Option StepError
  launched : Bool
  executedCommand : Option String
deriving DecidableEq

/-- `StepExecutor.run` (publish.ts lines 177-214). Publishes `Running`;
if the executor is skipped, publishes `Skipped` and resolves with null
without launching any subprocess; otherwise launches the computed command
and, on exit, publishes `Success` and resolves null for exit code 0, or
publishes `Failure` and resolves `{step, msg}` for any other exit code,
with `msg` the stderr buffer, the bold stdout separator, then the stdout
buffer. The promise resolves in every case; it never rejects. -/
def run (e : StepExecutor) (proc : ChildProcessResult) : RunResult :=
  let runningEvent := emitStepStatus e ExecutionStatus.running
  if e.skipped then
    { events := [runningEvent, emitStepStatus e ExecutionStatus.skipped],
      outcome := none, launched := false, executedCommand := none }
  else
    let command := computeExecutedCommand e
    let out := accumulateChunks proc.stdoutChunks
    let error := accumulateChunks proc.stderrChunks
    if proc.exitCode = some 0 then
      { events := [runningEvent, emitStepStatus e ExecutionStatus.success],
        outcome := none, launched := true, executedCommand := some command }
    else
      { events := [runningEvent, emitStepStatus e ExecutionStatus.failure],
        outcome := some { step := e.step,
                          msg := error ++ chalkBold "\nstdout :\n" ++ out },
        launched := true, executedCommand := some command }

/-- Two successive `run()` calls on the same executor. The source's `run`
method reads only the immutable fields (`skipped`, `step`, `options`) and
sets no flag, so the second call re-executes the whole body. -/
def runTwice (e : StepExecutor) (p1 p2 : ChildProcessResult) : RunResult × RunResult :=
  (run e p1, run e p2)

/-- Number of subprocesses launched by one `run()` call. -/
def subprocessLaunches (r : RunResult) : Nat :=
  if r.launched then 1 else 0

/-- The ignore line handled by `writeGitIgnoreFiles` (git.ts line 88). -/
def gitignoreLine : String := ".hooks/*.local.json"

/-- The per-package body of `writeGitIgnoreFiles` (git.ts lines 82-94) as
a transformation of the `.gitignore` content: `none` models a missing
file (a fresh file is written); for an existing file the appended text
`"\n.hooks/*.local.json\n"` is added exactly when the content already
includes the ignore line, and the content is left unchanged otherwise. -/
def writeGitIgnoreFile : Option String → String
  | none => ".hooks/*.local.json\n"
  | some content =>
    if strIncludes content gitignoreLine then content ++ "\n.hooks/*.local.json\n"
    else content

/-- `writeGitIgnoreFiles` (git.ts lines 79-95) over the `.gitignore`
contents of the listed packages. -/
def writeGitIgnoreFiles (gitignoreContents : List (Option String)) : List String :=
  gitignoreContents.map writeGitIgnoreFile

/-- Stated from the spec's words, for comparison with the source: the
claimed tokenization of `hookArguments` splits on whitespace (any
whitespace character) and discards empty tokens. -/
def specWhitespaceTokens (s : String) : List String :=
  ((splitChars Char.isWhitespace s.data).map String.mk).filter (fun t => t != "")

/-- The quoted argument string the source substitutes for the
placeholder: space-split tokens of `hookArguments`, empties dropped,
rejoined with single spaces, wrapped in double quotes. -/
def hookArgsQuoted (hookArguments : String) : String :=
  "\"" ++ jsJoin " " ((jsSplitSpace hookArguments).filter (fun arg => arg != "")) ++ "\""

end Mookme

namespace Mookme

/-- A plain step with no `onlyOn` pattern, used as a concrete instance. -/
def step1 : StepCommand := { name := "test", command := "echo hello", onlyOn := none }

/-- Plain executor options with no step type and no virtualenv. -/
def opts1 : ExecuteStepOptions :=
  { packageName := "pkg", packagePath := "/repo/pkg", rootDir := "/repo",
    type := none, venvActivate := none, hookArguments := "", stagedFiles := [] }

/-- A concrete non-skipped executor. -/
def e1 : StepExecutor := { step := step1, options := opts1, skipped := false }

/-- A concrete skipped executor. -/
def eSkipped : StepExecutor := { step := step1, options := opts1, skipped := true }

/-- A child process exiting cleanly with code 0. -/
def procOk : ChildProcessResult :=
  { stdoutChunks := [], stderrChunks := [], exitCode := some 0 }

/-- A child process writing on both streams and exiting with code 1. -/
def procFail : ChildProcessResult :=
  { stdoutChunks := ["hi"], stderrChunks := ["boom"], exitCode := some 1 }

/-- A child process killed by a signal: Node reports a `null` exit code. -/
def procNull : ChildProcessResult :=
  { stdoutChunks := [], stderrChunks := [], exitCode := none }

/-- When the pattern does not occur in the character list,
first-occurrence replacement is the identity. -/
theorem replaceFirstChars_eq_self_of_not_included (pat repl : List Char) :
    ∀ s : List Char, charsInclude s pat = false → replaceFirstChars pat repl s = s := by
  intro s
  induction s with
  | nil =>
    intro h
    cases pat with
    | nil => simp [charsInclude, List.isPrefixOf] at h
    | cons p ps => simp [replaceFirstChars]
  | cons c rest ih =>
    intro h
    simp only [charsInclude, Bool.or_eq_false_iff] at h
    obtain ⟨h1, h2⟩ := h
    have hp : pat ≠ [] := by
      intro hpat
      subst hpat
      simp [List.isPrefixOf] at h1
    simp only [replaceFirstChars, if_neg hp, h1]
    simp [ih h2]

/-- When the pattern does not occur in the string, first-occurrence
replacement is the identity. -/
theorem replaceFirst_eq_self_of_not_included (s pat repl : String)
    (h : strIncludes s pat = false) : replaceFirst s pat repl = s := by
  unfold strIncludes at h
  unfold replaceFirst
  rw [replaceFirstChars_eq_self_of_not_included pat.data repl.data s.data h]

/-- C1: for a non-skipped run, exit code 0 publishes Success and resolves
with no error; a non-zero exit code publishes Failure and resolves with
the step and the message made of the stderr buffer, the bold stdout
separator, and the stdout buffer. The embedding of `run` is a total
function, so the promise never rejects. -/
theorem run_exit_code_determines_outcome (e : StepExecutor) (proc : ChildProcessResult)
    (h : e.skipped = false) :
    (proc.exitCode = some 0 →
      (run e proc).events
          = [emitStepStatus e ExecutionStatus.running, emitStepStatus e ExecutionStatus.success]
        ∧ (run e proc).outcome = none)
    ∧ ∀ n : Int, proc.exitCode = some n → n ≠ 0 →
      (run e proc).events
          = [emitStepStatus e ExecutionStatus.running, emitStepStatus e ExecutionStatus.failure]
        ∧ (run e proc).outcome
          = some { step := e.step,
                   msg := accumulateChunks proc.stderrChunks ++ chalkBold "\nstdout :\n"
                            ++ accumulateChunks proc.stdoutChunks } := by
  constructor
  · intro h0
    constructor <;> simp [run, h, h0]
  · intro n hn hne
    have h0 : ¬ proc.exitCode = some 0 := by
      rw [hn]
      simp [hne]
    constructor <;> simp [run, h, h0]

/-- Witness for C1 at concrete inputs: a 0-exit run resolves with no
error, and a 1-exit run publishes Running then Failure. -/
theorem run_exit_code_determines_outcome_witness :
    (run e1 procOk).outcome = none
      ∧ (run e1 procFail).events
          = [emitStepStatus e1 ExecutionStatus.running, emitStepStatus e1 ExecutionStatus.failure] :=
  ⟨((run_exit_code_determines_outcome e1 procOk rfl).1 rfl).2,
   ((run_exit_code_determines_outcome e1 procFail rfl).2 1 rfl (by decide)).1⟩

/-- C10: for a non-skipped run, any exit code other than exactly 0 —
including the null code of a signal-killed process — publishes Failure
and resolves with an error outcome; Success is published only when the
exit code is exactly 0. -/
theorem run_only_exact_zero_is_success (e : StepExecutor) (proc : ChildProcessResult)
    (h : e.skipped = false) (h0 : proc.exitCode ≠ some 0) :
    (run e proc).events
        = [emitStepStatus e ExecutionStatus.running, emitStepStatus e ExecutionStatus.failure]
      ∧ (run e proc).outcome ≠ none
      ∧ ∀ proc2 : ChildProcessResult,
          emitStepStatus e ExecutionStatus.success ∈ (run e proc2).events →
          proc2.exitCode = some 0 := by
  refine ⟨by simp [run, h, h0], by simp [run, h, h0], ?_⟩
  intro proc2 hmem
  by_cases h2 : proc2.exitCode = some 0
  · exact h2
  · exfalso
    simp [run, h, h2, emitStepStatus] at hmem

/-- Witness for C10 at a concrete input: a signal-killed process (null
exit code) yields Failure and an error outcome. -/
theorem run_only_exact_zero_is_success_witness :
    (run e1 procNull).events
        = [emitStepStatus e1 ExecutionStatus.running, emitStepStatus e1 ExecutionStatus.failure]
      ∧ (run e1 procNull).outcome ≠ none :=
  ⟨(run_only_exact_zero_is_success e1 procNull rfl (by decide)).1,
   (run_only_exact_zero_is_success e1 procNull rfl (by decide)).2.1⟩

/-- C7: every single `run()` call emits exactly one Running event first,
followed by exactly one terminal event among Skipped, Success, Failure. -/
theorem run_emits_running_then_one_terminal (e : StepExecutor) (proc : ChildProcessResult) :
    ∃ t : ExecutionStatus,
      (run e proc).events.map StatusEvent.status = [ExecutionStatus.running, t]
        ∧ t ≠ ExecutionStatus.running
        ∧ (t = ExecutionStatus.skipped ∨ t = ExecutionStatus.success
            ∨ t = ExecutionStatus.failure) := by
  cases hs : e.skipped
  · by_cases h0 : proc.exitCode = some 0
    · exact ⟨ExecutionStatus.success, by simp [run, hs, h0, emitStepStatus],
        by decide, Or.inr (Or.inl rfl)⟩
    · exact ⟨ExecutionStatus.failure, by simp [run, hs, h0, emitStepStatus],
        by decide, Or.inr (Or.inr rfl)⟩
  · exact ⟨ExecutionStatus.skipped, by simp [run, hs, emitStepStatus],
      by decide, Or.inl rfl⟩

end Mookme

namespace Mookme

/-- C4: a step whose `onlyOn` pattern is unset is never skipped: the
`skipped` flag computed at construction is `false` regardless of the
staged files (or any other option). -/
theorem onlyOn_unset_never_skipped (step : StepCommand) (options : ExecuteStepOptions)
    (h : step.onlyOn = none) :
    isSkipped step options = Except.ok false
      ∧ StepExecutor.make step options
          = Except.ok { step := step, options := options, skipped := false } := by
  have h1 : isSkipped step options = Except.ok false := by
    simp [isSkipped, h]
  exact ⟨h1, by simp [StepExecutor.make, h1]⟩

/-- Witness for C4 at a concrete step with no `onlyOn`. -/
theorem onlyOn_unset_never_skipped_witness :
    isSkipped step1 opts1 = Except.ok false :=
  (onlyOn_unset_never_skipped step1 opts1 rfl).1

/-- C5: a run of a skipped executor publishes Running then Skipped,
resolves with no error, and never launches a subprocess. -/
theorem skipped_run_no_subprocess (e : StepExecutor) (proc : ChildProcessResult)
    (h : e.skipped = true) :
    (run e proc).events
        = [emitStepStatus e ExecutionStatus.running, emitStepStatus e ExecutionStatus.skipped]
      ∧ (run e proc).outcome = none
      ∧ (run e proc).launched = false
      ∧ (run e proc).executedCommand = none := by
  refine ⟨?_, ?_, ?_, ?_⟩ <;> simp [run, h]

/-- Witness for C5 at a concrete skipped executor. -/
theorem skipped_run_no_subprocess_witness :
    (run eSkipped procOk).outcome = none ∧ (run eSkipped procOk).launched = false :=
  ⟨(skipped_run_no_subprocess eSkipped procOk rfl).2.1,
   (skipped_run_no_subprocess eSkipped procOk rfl).2.2.1⟩

/-- C8: a syntactically invalid `onlyOn` pattern (one the matcher rejects)
makes executor construction fail with a hard error whose message names the
invalid pattern; no executor is ever produced, so no subprocess can be
considered, and the fault is an `Except.error` of the constructor, a shape
distinct from any step-failure `RunResult`. -/
theorem invalid_onlyOn_pattern_fails_construction (step : StepCommand)
    (options : ExecuteStepOptions) (p err : String)
    (h1 : step.onlyOn = some p) (h2 : p ≠ "")
    (h3 : getMatchedFiles p options.packagePath options.stagedFiles options.rootDir
            = Except.error err) :
    StepExecutor.make step options
        = Except.error ("Invalid `onlyOn` pattern: " ++ p ++ "\n" ++ err)
      ∧ ∀ ex : StepExecutor, StepExecutor.make step options ≠ Except.ok ex := by
  have hs : isSkipped step options
      = Except.error ("Invalid `onlyOn` pattern: " ++ p ++ "\n" ++ err) := by
    simp [isSkipped, h1, h2, h3]
  refine ⟨by simp [StepExecutor.make, hs], ?_⟩
  intro ex
  simp [StepExecutor.make, hs]

/-- A step whose `onlyOn` glob has an unbalanced bracket. -/
def stepBad : StepCommand :=
  { name := "lint", command := "eslint .", onlyOn := some "[invalid" }

/-- Witness for C8: constructing an executor for a step with the
unbalanced-bracket pattern fails with the descriptive error. -/
theorem invalid_onlyOn_pattern_fails_construction_witness :
    StepExecutor.make stepBad opts1
      = Except.error ("Invalid `onlyOn` pattern: " ++ "[invalid" ++ "\n"
          ++ "PatternError: invalid glob pattern [invalid") :=
  (invalid_onlyOn_pattern_fails_construction stepBad opts1 "[invalid"
    "PatternError: invalid glob pattern [invalid" rfl (by decide) rfl).1

/-- C9: for an existing `.gitignore`, `writeGitIgnoreFiles` appends the
ignore line exactly when the content already includes it, and leaves the
content unchanged when the line is absent. -/
theorem gitignore_appends_only_when_line_present (content : String)
    (h : strIncludes content gitignoreLine = true) :
    writeGitIgnoreFile (some content) = content ++ "\n.hooks/*.local.json\n"
      ∧ ∀ c2 : String, strIncludes c2 gitignoreLine = false →
          writeGitIgnoreFile (some c2) = c2 := by
  refine ⟨by simp [writeGitIgnoreFile, h], ?_⟩
  intro c2 h2
  simp [writeGitIgnoreFile, h2]

/-- Witness for C9: a `.gitignore` already containing the line gets a
duplicate appended. -/
theorem gitignore_appends_only_when_line_present_witness :
    writeGitIgnoreFile (some "node_modules\n.hooks/*.local.json\n")
      = "node_modules\n.hooks/*.local.json\n" ++ "\n.hooks/*.local.json\n" :=
  (gitignore_appends_only_when_line_present "node_modules\n.hooks/*.local.json\n"
    (by decide)).1

end Mookme

namespace Mookme

/-- Counterexample to C2: `run()` keeps no state, so a second call on the
same (non-skipped) executor launches a second subprocess; it is neither
rejected nor memoized. -/
theorem run_twice_launches_second_subprocess_counterexample :
    (runTwice e1 procOk procOk).2.launched = true
      ∧ subprocessLaunches (runTwice e1 procOk procOk).1
          + subprocessLaunches (runTwice e1 procOk procOk).2 = 2 :=
  ⟨rfl, rfl⟩

/-- C2 amended: the executor does not guard against repeated `run()`
calls — every `run()` call on a non-skipped executor launches exactly one
new subprocess, so two calls launch two. The at-most-one-launch invariant
holds only under the intended lifecycle of one `run()` per executor. -/
theorem each_run_call_launches_a_subprocess (e : StepExecutor)
    (p1 p2 : ChildProcessResult) (h : e.skipped = false) :
    subprocessLaunches (runTwice e p1 p2).1 = 1
      ∧ subprocessLaunches (runTwice e p1 p2).2 = 1
      ∧ subprocessLaunches (runTwice e p1 p2).1
          + subprocessLaunches (runTwice e p1 p2).2 = 2 := by
  have hl : ∀ p : ChildProcessResult, subprocessLaunches (run e p) = 1 := by
    intro p
    by_cases h0 : p.exitCode = some 0 <;> simp [run, subprocessLaunches, h, h0]
  exact ⟨hl p1, hl p2, by simp [runTwice, hl p1, hl p2]⟩

/-- Witness for the amended C2 at concrete inputs. -/
theorem each_run_call_launches_a_subprocess_witness :
    subprocessLaunches (runTwice e1 procOk procFail).1
      + subprocessLaunches (runTwice e1 procOk procFail).2 = 2 :=
  (each_run_call_launches_a_subprocess e1 procOk procFail rfl).2.2

/-- An executor whose hook arguments contain a tab between the tokens. -/
def eTab : StepExecutor :=
  { step := { name := "echo-step", command := "echo {args}", onlyOn := none },
    options := { packageName := "pkg", packagePath := "/repo/pkg", rootDir := "/repo",
                 type := none, venvActivate := none, hookArguments := "a\tb",
                 stagedFiles := [] },
    skipped := false }

/-- Counterexample to C3: the source splits `hookArguments` on the space
character only, not on whitespace. For the tab-separated arguments
`"a\tb"` the whitespace tokenization of the claim rejoins to `"a b"`, but
the produced command keeps the tab and does not embed `"a b"`. -/
theorem whitespace_tokenization_counterexample :
    computeExecutedCommand eTab = "echo \"a\tb\""
      ∧ strIncludes (computeExecutedCommand eTab) "a b" = false
      ∧ jsJoin " " (specWhitespaceTokens "a\tb") = "a b" :=
  ⟨by decide, by decide, by decide⟩

/-- C3 amended: the Command Builder tokenizes `hookArguments` by
splitting on the space character (not on arbitrary whitespace), discards
empty tokens, rejoins with single spaces, wraps the result in double
quotes, and substitutes it for at most the first literal placeholder
occurrence; when the placeholder is absent the command is unchanged and
no error occurs. -/
theorem args_interpolation_space_split (e : StepExecutor)
    (h : e.options.type = none) :
    computeExecutedCommand e
        = replaceFirst e.step.command "{args}" (hookArgsQuoted e.options.hookArguments)
      ∧ (strIncludes e.step.command "{args}" = false →
          computeExecutedCommand e = e.step.command) := by
  have h1 : computeExecutedCommand e
      = replaceFirst e.step.command "{args}" (hookArgsQuoted e.options.hookArguments) := by
    rcases hv : e.options.venvActivate with _ | v <;>
      simp [computeExecutedCommand, hookArgsQuoted, h, hv]
  refine ⟨h1, fun h2 => ?_⟩
  rw [h1]
  exact replaceFirst_eq_self_of_not_included _ _ _ h2

/-- The spec's own example: template `"echo {args}"` with hook arguments
`"  a  b "`. -/
def eEcho : StepExecutor :=
  { step := { name := "echo", command := "echo {args}", onlyOn := none },
    options := { packageName := "pkg", packagePath := "/repo/pkg", rootDir := "/repo",
                 type := none, venvActivate := none, hookArguments := "  a  b ",
                 stagedFiles := [] },
    skipped := false }

/-- Witness for the amended C3: on the spec's example the produced
command embeds `"a b"` (collapsed whitespace, trimmed). -/
theorem args_interpolation_space_split_witness :
    computeExecutedCommand eEcho
        = replaceFirst eEcho.step.command "{args}" (hookArgsQuoted eEcho.options.hookArguments)
      ∧ strIncludes (computeExecutedCommand eEcho) "a b" = true :=
  ⟨(args_interpolation_space_split eEcho rfl).1, by decide⟩

/-- C6: for a python step with a truthy `venvActivate`, the built command
is the template wrapped as activate-run-deactivate chained with `&&`,
then argument-interpolated; in every other case the template is used
as-is before argument interpolation. -/
theorem python_venv_wraps_command (e : StepExecutor) (v : String)
    (h1 : e.options.type = some PackageType.python)
    (h2 : e.options.venvActivate = some v) (h3 : v ≠ "") :
    computeExecutedCommand e
        = replaceFirst ("source " ++ v ++ " && " ++ e.step.command ++ " && deactivate")
            "{args}" (hookArgsQuoted e.options.hookArguments)
      ∧ ∀ e2 : StepExecutor,
          (e2.options.type ≠ some PackageType.python ∨ e2.options.venvActivate = none
            ∨ e2.options.venvActivate = some "") →
          computeExecutedCommand e2
            = replaceFirst e2.step.command "{args}" (hookArgsQuoted e2.options.hookArguments) := by
  constructor
  · simp [computeExecutedCommand, hookArgsQuoted, h1, h2, h3]
  · intro e2 hcase
    rcases ht : e2.options.type with _ | pt
    · rcases hv : e2.options.venvActivate with _ | v2 <;>
        simp [computeExecutedCommand, hookArgsQuoted, ht, hv]
    · cases pt with
      | generic =>
        rcases hv : e2.options.venvActivate with _ | v2 <;>
          simp [computeExecutedCommand, hookArgsQuoted, ht, hv]
      | python =>
        rcases hv : e2.options.venvActivate with _ | v2
        · simp [computeExecutedCommand, hookArgsQuoted, ht, hv]
        · have hv2 : v2 = "" := by
            rcases hcase with hc | hc | hc
            · exact absurd ht hc
            · rw [hv] at hc
              cases hc
            · rw [hv] at hc
              exact Option.some.inj hc
          subst hv2
          simp [computeExecutedCommand, hookArgsQuoted, ht, hv]

/-- A python step with a virtualenv to activate. -/
def eVenv : StepExecutor :=
  { step := { name := "pytest", command := "pytest", onlyOn := none },
    options := { packageName := "py", packagePath := "/repo/py", rootDir := "/repo",
                 type := some PackageType.python, venvActivate := some "venv/bin/activate",
                 hookArguments := "", stagedFiles := [] },
    skipped := false }

/-- Witness for C6 at a concrete python step with a virtualenv. -/
theorem python_venv_wraps_command_witness :
    computeExecutedCommand eVenv
      = replaceFirst ("source " ++ "venv/bin/activate" ++ " && " ++ eVenv.step.command
          ++ " && deactivate") "{args}" (hookArgsQuoted eVenv.options.hookArguments) :=
  (python_venv_wraps_command eVenv "venv/bin/activate" rfl rfl (by decide)).1

end Mookme
